import Mathlib

set_option maxRecDepth 8000

/-!
Verification development for the nano-platform dependency-resolution and
component-lifecycle engine.  The definitions below are shallow embeddings of
the Python sources:

* `src/nanopp/dependencies.py` and `src/termite/dependencies.py`
  (identical for the parts embedded here): `Markable`, `Vertex`, `Edge`,
  `Graph`, `DependenciesManager`, `PluginDependency`, `Require`,
  `PluginDependenciesManager`;
* `src/termite/platform.py` and `src/nanopp/platform.py`: `PluginContainer`
  lifecycle transitions and `PluginManager.install_all_plugins`;
* `src/nanopp/plugins/support.py`: version-range matching.

Vertices are identified by their unique name (the Python `Graph.add_vertex`
rejects duplicate names, so object identity coincides with name equality
inside a graph).  Python lists and dicts with mutation become explicit state
passing; recursion that the Python runtime bounds by the call stack is given
an explicit fuel argument that strictly dominates the recursion depth of the
source algorithm on the inputs considered.  Fallible operations return
`Except`.
-/

namespace NanoPP

/-- Mark values stored by `Markable.mark`: the sources store strings such as
`added`, `resolved`, `visited`, `DISCOVERED`, `satisfied`, and the boolean
`True` (for the `VISITED` key used by `__follow__`). -/
inductive MarkVal where
  | s : String → MarkVal
  | b : Bool → MarkVal
deriving DecidableEq, Repr

/-- Python truthiness of an optional mark value, as used in conditions like
`if vertex.marked()` and `if not edge.marked()`.  `dict.get` of a missing key
is `None` (falsy); an empty string and `False` are falsy. -/
def truthyOpt : Option MarkVal → Bool
  | none => false
  | some (.s v) => v != ""
  | some (.b v) => v

/-- The `Markable.__marks` dictionary: an association list from key to value.
The sources only ever read a mark back through `marked(key)` (`dict.get`),
never iterate the dictionary, so a dict write is modelled as
remove-the-old-binding-then-prepend, which has the same `get` semantics. -/
abbrev Marks := List (String × MarkVal)

def marksGet (m : Marks) (k : String) : Option MarkVal :=
  (m.find? (fun p => p.1 == k)).map (·.2)

def marksSet (m : Marks) (k : String) (v : MarkVal) : Marks :=
  (k, v) :: m.eraseP (fun p => p.1 == k)

/-! ### The generic directed graph (`Vertex`, `Edge`, `Graph`) -/

structure PVertex where
  name : String
  marks : Marks
deriving DecidableEq, Repr

/-- An `Edge(head, tail)`: `tail` is the dependent, `head` the depended-upon
vertex.  Both endpoint objects are recorded by their (unique) names. -/
structure PEdge where
  head : String
  tail : String
  marks : Marks
deriving DecidableEq, Repr

/-- The `Graph` object: `vertices` in insertion order and `edges` in creation
order.  The incidence list of each vertex is derived below (edges are appended
to both endpoint lists at creation time, so the incidence list of a vertex is
its incident edges in creation order, a self-loop appearing twice). -/
structure PGraph where
  vertices : List PVertex
  edges : List PEdge
deriving DecidableEq, Repr

inductive GErr where
  | duplicateVertex
  | duplicateEdge
  | unknownVertex
  | duplicateDependency
  | unknownDependency
deriving DecidableEq, Repr

def PGraph.findVertex (g : PGraph) (n : String) : Option PVertex :=
  g.vertices.find? (fun x => x.name == n)

def edgeAt (g : PGraph) (i : Nat) : PEdge :=
  g.edges.getD i ⟨"", "", []⟩

/-- Indices (in creation order) of the edges in `vertex.edges` for the vertex
named `n`; a self-loop was appended twice (once via `head.add_edge`, once via
`tail.add_edge`). -/
def incidence (g : PGraph) (n : String) : List Nat :=
  g.edges.enum.flatMap (fun p =>
    if p.2.head == n && p.2.tail == n then [p.1, p.1]
    else if p.2.head == n || p.2.tail == n then [p.1]
    else [])

/-- `Vertex.out_edges`: incident edges whose head is not this vertex. -/
def outEdgeIdxs (g : PGraph) (n : String) : List Nat :=
  (incidence g n).filter (fun i => (edgeAt g i).head != n)

/-- `Vertex.in_edges`: incident edges whose head is this vertex. -/
def inEdgeIdxs (g : PGraph) (n : String) : List Nat :=
  (incidence g n).filter (fun i => (edgeAt g i).head == n)

/-- `vertex.marked()` with the default key, looking the vertex up by name. -/
def defaultVMark (g : PGraph) (n : String) : Option MarkVal :=
  (g.findVertex n).bind (fun x => marksGet x.marks ":default")

/-- `vertex.mark(value)` (default key) on the vertex named `n`. -/
def markVertexDefault (g : PGraph) (n : String) (v : MarkVal) : PGraph :=
  { g with vertices := g.vertices.map (fun x =>
      if x.name == n then { x with marks := marksSet x.marks ":default" v } else x) }

/-- `edge.mark(value)` (default key) on the edge with creation index `i`. -/
def markEdgeDefault (g : PGraph) (i : Nat) (v : MarkVal) : PGraph :=
  match g.edges[i]? with
  | some e => { g with edges := g.edges.set i { e with marks := marksSet e.marks ":default" v } }
  | none => g

/-- `Graph.add_vertex` for a fresh `Vertex(name)`. -/
def addVertex (g : PGraph) (n : String) : Except GErr PGraph :=
  if (g.findVertex n).isSome then .error .duplicateVertex
  else .ok { g with vertices := g.vertices ++ [⟨n, []⟩] }

/-- The edge key used by `Graph.create_edge` (`__to_edge_id`): the string
`"head-tail"`. -/
def plainEdgeId (h t : String) : String := h ++ "-" ++ t

/-- `Graph.create_edge(tail_vertex, head_vertex)`. -/
def createEdge (g : PGraph) (t h : String) : Except GErr PGraph :=
  if !((g.findVertex h).isSome && (g.findVertex t).isSome) then .error .unknownVertex
  else if g.edges.any (fun e => plainEdgeId e.head e.tail == plainEdgeId h t) then
    .error .duplicateEdge
  else .ok { g with edges := g.edges ++ [⟨h, t, []⟩] }

/-- Build a graph the way the tests do: `add_vertex` for each name in order,
then `create_edge(tail, head)` for each pair in order. -/
def buildGraph (vs : List String) (es : List (String × String)) : Except GErr PGraph := do
  let g ← vs.foldlM (fun g n => addVertex g n) (⟨[], []⟩ : PGraph)
  es.foldlM (fun g p => createEdge g p.1 p.2) g

/-! ### `Graph.find_circular_rings` / `Graph.__traverse_cr__`

`find_circular_rings` calls `__traverse_cr__(vertex, [], {}, rings)` for every
vertex: `backtrack` (a list that is appended to and never popped) and
`visited` (a dict keyed by vertex name, never cleared) are fresh per
top-level vertex, `rings` is shared.  `__clone__` returns `self`, so the
traversal mutates the graph's own persistent default-key marks. -/

structure CRState where
  g : PGraph
  backtrack : List String
  visited : List String
  rings : List (List String)

/-- The ring extraction: scan `backtrack` for the first occurrence of the
edge head and keep the suffix from there; if the head does not occur the ring
stays `[]` (the Python loop leaves `ring = []`). -/
def ringFrom : List String → String → List String
  | [], _ => []
  | x :: rest, h => if x == h then x :: rest else ringFrom rest h

/-- One iteration of the `for edge in vertex.out_edges()` loop of
`__traverse_cr__`: report a ring when the edge head is in `visited`, then
recurse into the head when it is unmarked.  `rec` is the recursive call (the
traversal at smaller fuel). -/
def crEdgeStep (rec : String → CRState → CRState) (i : Nat) (s : CRState) : CRState :=
  let h := (edgeAt s.g i).head
  let s1 := if s.visited.contains h then
      { s with rings := s.rings ++ [ringFrom s.backtrack h] }
    else s
  if truthyOpt (defaultVMark s1.g h) then s1 else rec h s1

/-- The `for edge in vertex.out_edges()` loop of `__traverse_cr__`. -/
def crEdgeLoop (rec : String → CRState → CRState) : List Nat → CRState → CRState
  | [], s => s
  | i :: rest, s => crEdgeLoop rec rest (crEdgeStep rec i s)

/-- `Graph.__traverse_cr__`.  The fuel strictly dominates the recursion
depth: every recursive call is made on a vertex that is unmarked at call time
and the callee marks it, so chains of calls are bounded by the number of
vertices. -/
def traverseCR : Nat → String → CRState → CRState
  | 0, _, s => s
  | fuel + 1, v, s =>
    if truthyOpt (defaultVMark s.g v) then s
    else
      let g1 := markVertexDefault s.g v (.s "visited")
      let s1 : CRState := ⟨g1, s.backtrack ++ [v], s.visited ++ [v], s.rings⟩
      crEdgeLoop (traverseCR fuel) (outEdgeIdxs g1 v) s1

/-- The `for vertex in graph.vertices` loop of `find_circular_rings`. -/
def fcrLoop (fuel : Nat) : List String → PGraph × List (List String) → PGraph × List (List String)
  | [], acc => acc
  | v :: rest, acc =>
    let s := traverseCR fuel v ⟨acc.1, [], [], acc.2⟩
    fcrLoop fuel rest (s.g, s.rings)

/-- `Graph.find_circular_rings`: returns the mutated graph (the marks set by
the traversal persist, since `__clone__` returns `self`) together with the
list of rings (each ring as the list of its vertex names in backtrack
order). -/
def findCircularRings (g : PGraph) : PGraph × List (List String) :=
  fcrLoop (g.vertices.length + 1) (g.vertices.map (·.name)) (g, [])

/-- `Graph.is_circular`. -/
def isCircular (g : PGraph) : Bool :=
  (findCircularRings g).2.length > 0

/-- Modelled from the spec: graph-theoretic acyclicity of the directed graph
(§4.1 speaks of "an acyclic DAG"; this is not a function of the source, it is
the mathematical notion the claim quantifies over).  A vertex lies on a cycle
iff it is reachable from one of its successors. -/
def succsOf (g : PGraph) (n : String) : List String :=
  (outEdgeIdxs g n).map (fun i => (edgeAt g i).head)

def reachExpand (g : PGraph) (acc : List String) : List String :=
  acc.foldl (fun a m =>
    (succsOf g m).foldl (fun a' h => if a'.contains h then a' else a' ++ [h]) a) acc

def reachIter (g : PGraph) : Nat → List String → List String
  | 0, a => a
  | k + 1, a => reachIter g k (reachExpand g a)

def reachFrom (g : PGraph) (start : List String) : List String :=
  reachIter g (g.vertices.length + 1) start

def hasCycleSpec (g : PGraph) : Bool :=
  g.vertices.any (fun x => (reachFrom g (succsOf g x.name)).contains x.name)

def acyclicSpec (g : PGraph) : Bool := !hasCycleSpec g

/-! ### `DependenciesManager` and `get_install_order` -/

/-- The `DependenciesManager.dependencies` dict: dependency id to its
`depends_on` list, in insertion order.  (The `ref`, `available` and
`dependants` fields of `Dependency` are not read by any of the functions
embedded here.) -/
abbrev DMDeps := List (String × List String)

/-- `DependenciesManager.add_dependency` (duplicate ids are rejected). -/
def dmAddDependency (deps : DMDeps) (depId : String) (dependsOn : List String) :
    Except GErr DMDeps :=
  if (deps.find? (fun p => p.1 == depId)).isSome then .error .duplicateDependency
  else .ok (deps ++ [(depId, dependsOn)])

def dmRun (calls : List (String × List String)) : Except GErr DMDeps :=
  calls.foldlM (fun d p => dmAddDependency d p.1 p.2) ([] : DMDeps)

/-- The `get_vertex(name) or add_vertex(Vertex(name))` idiom in
`build_dependency_graph` (the `add_vertex` cannot fail there, the vertex is
absent). -/
def getOrAddVertex (g : PGraph) (n : String) : PGraph :=
  if (g.findVertex n).isSome then g else { g with vertices := g.vertices ++ [⟨n, []⟩] }

/-- `DependenciesManager.build_dependency_graph`: one vertex per dependency id
in dict order, then for every `(dep_id, depends_on)` and every `d` in
`depends_on` an edge with head `d` and tail `dep_id` (the dependent points at
its dependency). -/
def buildDependencyGraph (deps : DMDeps) : Except GErr PGraph := do
  let g ← deps.foldlM (fun g p => addVertex g p.1) (⟨[], []⟩ : PGraph)
  let edges := deps.flatMap (fun p => p.2.map (fun d => (d, p.1)))
  edges.foldlM (fun g p =>
    let g := getOrAddVertex g p.1
    let g := getOrAddVertex g p.2
    createEdge g p.2 p.1) g

/-- `DependenciesManager.__count_unmarked_out_edges__`. -/
def countUnmarkedOutEdges (g : PGraph) (v : String) : Nat :=
  ((outEdgeIdxs g v).filter (fun i =>
    !truthyOpt (marksGet (edgeAt g i).marks ":default"))).length

structure IOState where
  g : PGraph
  order : List String

/-- The `for edge in vertex.in_edges()` loop of `__traverse__`: mark each
in-edge `resolved` and collect the tails that are unmarked at that moment. -/
def resolveInEdges (g : PGraph) (idxs : List Nat) : PGraph × List String :=
  idxs.foldl (fun (acc : PGraph × List String) i =>
    let g1 := markEdgeDefault acc.1 i (.s "resolved")
    let tl := (edgeAt g1 i).tail
    if truthyOpt (defaultVMark g1 tl) then (g1, acc.2) else (g1, acc.2 ++ [tl]))
    (g, [])

/-- The `for visit_vertex in visit_vertices` recursion loop. -/
def visitLoop (rec : String → IOState → IOState) : List String → IOState → IOState
  | [], s => s
  | v :: rest, s => visitLoop rec rest (rec v s)

/-- `DependenciesManager.__traverse__`: a vertex with no unmarked out-edges is
appended to the order and marked `added`; its in-edges are marked `resolved`
and the traversal continues on their unmarked tails. -/
def instTraverse : Nat → String → IOState → IOState
  | 0, _, s => s
  | fuel + 1, v, s =>
    if truthyOpt (defaultVMark s.g v) then s
    else if countUnmarkedOutEdges s.g v != 0 then s
    else
      let g1 := markVertexDefault s.g v (.s "added")
      let r := resolveInEdges g1 (inEdgeIdxs g1 v)
      visitLoop (instTraverse fuel) r.2 ⟨r.1, s.order ++ [v]⟩

/-- `DependenciesManager.get_install_order`: build the graph, start a
traversal at every vertex with no out-edges, return the names in order. -/
def getInstallOrder (deps : DMDeps) : Except GErr (List String) :=
  (buildDependencyGraph deps).map (fun g =>
    let fuel := g.vertices.length + 1
    ((g.vertices.map (·.name)).foldl (fun (st : IOState) v =>
      if (outEdgeIdxs st.g v).isEmpty then instTraverse fuel v st else st)
      ⟨g, []⟩).order)

/-! ### `PluginDependenciesManager`, `PluginDependency`, `Require`

The plugin dependency graph holds `PluginDependency` vertices (a name plus a
dict from version string to the list of providers registered under it) and
`Require` edges (tail = dependent, head = required capability, with a version
range).  `Graph.add_edge` keys edges by `edge.id()`, which for a `Require` is
the string `"Dep(tail)->Dep(head):[min,max]"` rendered by
`__str_versions__`. -/

structure PDVertex where
  name : String
  providers : List (String × List String)
  marks : Marks
deriving DecidableEq, Repr

structure RequireEdge where
  head : String
  tail : String
  minVersion : Option String × Bool
  maxVersion : Option String × Bool
  marks : Marks
deriving DecidableEq, Repr

structure PDMGraph where
  vertices : List PDVertex
  edges : List RequireEdge
deriving DecidableEq, Repr

/-- A version bound argument as `Require.__to_version_tupple__` receives it:
either a bare value (``(v, True)`` results) or an explicit
`(value, inclusive)` pair.  Bound values are optional version strings
(`None` = unbounded). -/
inductive VerArg where
  | bare : Option String → VerArg
  | pair : Option String → Bool → VerArg
deriving DecidableEq, Repr

def VerArg.toTuple : VerArg → Option String × Bool
  | .bare v => (v, true)
  | .pair v i => (v, i)

/-- `str(None)` is `"None"`; a version string renders as itself. -/
def optVerStr : Option String → String
  | none => "None"
  | some s => s

/-- `Require.__str_versions__`. -/
def verRangeStr (mn mx : Option String × Bool) : String :=
  (if mn.2 then "[" else "(") ++ optVerStr mn.1 ++ "," ++ optVerStr mx.1 ++
    (if mx.2 then "]" else ")")

/-- `str(PluginDependency)` is `"Dep(name)"`. -/
def depStr (n : String) : String := "Dep(" ++ n ++ ")"

/-- `Require.id()`. -/
def reqEdgeId (e : RequireEdge) : String :=
  depStr e.tail ++ "->" ++ depStr e.head ++ ":" ++ verRangeStr e.minVersion e.maxVersion

def pdmFindVertex (g : PDMGraph) (n : String) : Option PDVertex :=
  g.vertices.find? (fun x => x.name == n)

def pdmEdgeAt (g : PDMGraph) (i : Nat) : RequireEdge :=
  g.edges.getD i ⟨"", "", (none, true), (none, true), []⟩

def pdmIncidence (g : PDMGraph) (n : String) : List Nat :=
  g.edges.enum.flatMap (fun p =>
    if p.2.head == n && p.2.tail == n then [p.1, p.1]
    else if p.2.head == n || p.2.tail == n then [p.1]
    else [])

def pdmOutEdgeIdxs (g : PDMGraph) (n : String) : List Nat :=
  (pdmIncidence g n).filter (fun i => (pdmEdgeAt g i).head != n)

def pdmInEdgeIdxs (g : PDMGraph) (n : String) : List Nat :=
  (pdmIncidence g n).filter (fun i => (pdmEdgeAt g i).head == n)

def pdmVMark (g : PDMGraph) (n k : String) : Option MarkVal :=
  (pdmFindVertex g n).bind (fun x => marksGet x.marks k)

def pdmMarkVertex (g : PDMGraph) (n k : String) (v : MarkVal) : PDMGraph :=
  { g with vertices := g.vertices.map (fun x =>
      if x.name == n then { x with marks := marksSet x.marks k v } else x) }

def pdmMarkEdge (g : PDMGraph) (i : Nat) (k : String) (v : MarkVal) : PDMGraph :=
  match g.edges[i]? with
  | some e => { g with edges := g.edges.set i { e with marks := marksSet e.marks k v } }
  | none => g

/-- `PluginDependenciesManager.dependency`: get-or-create the vertex. -/
def pdmDependency (g : PDMGraph) (n : String) : PDMGraph :=
  if (pdmFindVertex g n).isSome then g
  else { g with vertices := g.vertices ++ [⟨n, [], []⟩] }

/-- `Require.is_satisfied_with` as written in both
`src/nanopp/dependencies.py` and `src/termite/dependencies.py`: it returns
`False` unconditionally. -/
def requireIsSatisfiedWith (_version : String) : Bool := false

/-- `Require.is_satisfied`: `self.marked() == 'satisfied'`. -/
def requireIsSatisfied (e : RequireEdge) : Bool :=
  marksGet e.marks ":default" == some (.s "satisfied")

/-- `PluginDependency.add_provider`: append the provider under the version
(creating the version's list when absent or empty). -/
def addProviderEntry (ps : List (String × List String)) (ver prov : String) :
    List (String × List String) :=
  match ps.find? (fun p => p.1 == ver) with
  | some _ => ps.map (fun p => if p.1 == ver then (p.1, p.2 ++ [prov]) else p)
  | none => ps ++ [(ver, [prov])]

/-- `PluginDependenciesManager.add_provider`: fails on an unknown dependency,
appends the provider, then walks the in-edges marking those whose
`is_satisfied_with(version)` holds (which is never, see
`requireIsSatisfiedWith`). -/
def pdmAddProvider (g : PDMGraph) (depName ver prov : String) : Except GErr PDMGraph :=
  match pdmFindVertex g depName with
  | none => .error .unknownDependency
  | some _ =>
    let g1 : PDMGraph := { g with vertices := g.vertices.map (fun x =>
      if x.name == depName then { x with providers := addProviderEntry x.providers ver prov }
      else x) }
    .ok ((pdmInEdgeIdxs g1 depName).foldl (fun gg i =>
      if requireIsSatisfiedWith ver then pdmMarkEdge gg i ":default" (.s "satisfied") else gg) g1)

/-- `Graph.add_edge` on the plugin dependency graph (edge keyed by
`Require.id()`). -/
def pdmAddEdge (g : PDMGraph) (e : RequireEdge) : Except GErr (PDMGraph × RequireEdge) :=
  if !((pdmFindVertex g e.head).isSome && (pdmFindVertex g e.tail).isSome) then
    .error .unknownVertex
  else if g.edges.any (fun e0 => reqEdgeId e0 == reqEdgeId e) then
    .error .duplicateEdge
  else .ok ({ g with edges := g.edges ++ [e] }, e)

/-- `PluginDependenciesManager.require`: builds
`Require(self.dependency(require), self.dependency(dep_name), min, max)`
(the required vertex is created first, then the dependent one), adds it via
`add_edge` and returns it. -/
def pdmRequire (g : PDMGraph) (depName reqName : String) (mn mx : VerArg) :
    Except GErr (PDMGraph × RequireEdge) :=
  let g1 := pdmDependency g reqName
  let g2 := pdmDependency g1 depName
  pdmAddEdge g2 ⟨reqName, depName, mn.toTuple, mx.toTuple, []⟩

/-! ### `reverese_dependency_order` / `__follow__` -/

structure FState where
  g : PDMGraph
  order : List String

def allOutVisited (g : PDMGraph) (v : String) : Bool :=
  (pdmOutEdgeIdxs g v).all (fun i => truthyOpt (marksGet (pdmEdgeAt g i).marks "VISITED"))

/-- The `for edg in v_parent.in_edges()` loop of `__follow__`: mark the edge
`VISITED` and recurse into its tail. -/
def followInLoop (rec : String → FState → FState) : List Nat → FState → FState
  | [], s => s
  | i :: rest, s =>
    let s1 : FState := ⟨pdmMarkEdge s.g i "VISITED" (.b true), s.order⟩
    followInLoop rec rest (rec (pdmEdgeAt s1.g i).tail s1)

/-- The `for edg in v_parent.out_edges()` loop of `__follow__`. -/
def followOutLoop (rec : String → FState → FState) : List Nat → FState → FState
  | [], s => s
  | i :: rest, s => followOutLoop rec rest (rec (pdmEdgeAt s.g i).head s)

/-- `PluginDependenciesManager.__follow__`. -/
def follow : Nat → String → FState → FState
  | 0, _, s => s
  | fuel + 1, v, s =>
    if truthyOpt (pdmVMark s.g v "VISITED") then s
    else if (pdmOutEdgeIdxs s.g v).isEmpty || allOutVisited s.g v then
      let s1 : FState := ⟨pdmMarkVertex s.g v "VISITED" (.b true), s.order ++ [v]⟩
      followInLoop (follow fuel) (pdmInEdgeIdxs s1.g v) s1
    else
      followOutLoop (follow fuel) (pdmOutEdgeIdxs s.g v) s

/-- `PluginDependenciesManager.reverese_dependency_order` (as the list of the
vertex names in output order; `__clone__` returns `self`). -/
def reverseDependencyOrderNames (g : PDMGraph) : List String :=
  let fuel := g.vertices.length + g.edges.length + 1
  ((g.vertices.map (·.name)).foldl (fun (s : FState) v => follow fuel v s) ⟨g, []⟩).order

/-- The provider flattening in `PluginManager.install_all_plugins`: walk the
vertices in the given order, walk each vertex's providers dict in insertion
order, and insert every provider into `prov_set` (a Python `set`; this list
records the set's contents, first-insertion order — the set itself does not
preserve any order). -/
def providerSetContents (g : PDMGraph) (order : List String) : List String :=
  order.foldl (fun acc n =>
    match pdmFindVertex g n with
    | some x => (x.providers.flatMap (·.2)).foldl
        (fun a p => if a.contains p then a else a ++ [p]) acc
    | none => acc) []

/-- A call sequence against one `PluginDependenciesManager`. -/
inductive PdmOp where
  | dep : String → PdmOp
  | addProv : String → String → String → PdmOp
  | req : String → String → VerArg → VerArg → PdmOp
deriving DecidableEq, Repr

def runPdmOps (ops : List PdmOp) : Except GErr PDMGraph :=
  ops.foldlM (fun g op =>
    match op with
    | .dep n => .ok (pdmDependency g n)
    | .addProv n v p => pdmAddProvider g n v p
    | .req dn rn mn mx => (pdmRequire g dn rn mn mx).map (·.1))
    (⟨[], []⟩ : PDMGraph)

/-! ### The component lifecycle (`PluginContainer`)

`plugin_state` starts as `None` (before `load()`), hence `Option PState`.
A hook is summarised by whether each of its three operations raises. -/

inductive PState where
  | uninstalled
  | installed
  | active
  | deactivated
  | disposed
deriving DecidableEq, Repr

structure Hook where
  activateRaises : Bool
  deactivateRaises : Bool
  onStateChangeRaises : Bool
deriving DecidableEq, Repr

/-- The `for hook in self.plugin_hooks: hook.activate()` loop: `true` iff some
hook raises (execution stops at the first raising hook; the hooks after it do
not run, which does not affect whether the `except` branch is taken). -/
def runActivateHooks : List Hook → Bool
  | [] => false
  | h :: t => if h.activateRaises then true else runActivateHooks t

/-- `PluginContainer.activate` of `src/termite/platform.py` (lines 218-238):
result is the new `plugin_state` paired with whether a
`PluginLifecycleException` propagates out of the call.  Hook exceptions are
caught: the container logs, moves to `STATE_DEACTIVATED` and notifies (and
`notify_state_change` swallows hook errors), so they never propagate. -/
def termiteActivate (st : Option PState) (hooks : List Hook) : Option PState × Bool :=
  if st ≠ some PState.installed ∧ st ≠ some PState.deactivated then (st, true)
  else if runActivateHooks hooks then (some PState.deactivated, false)
  else (some PState.active, false)

/-- `PluginContainer.deactivate` of `src/termite/platform.py`: only legal from
`STATE_ACTIVE`; hook `deactivate` errors are logged per hook and do not abort;
always ends `STATE_DEACTIVATED`. -/
def termiteDeactivate (st : Option PState) (_hooks : List Hook) : Option PState × Bool :=
  if st ≠ some PState.active then (st, true)
  else (some PState.deactivated, false)

/-- `PluginContainer.activate` of `src/nanopp/platform.py` (lines 110-121).
Its guard reads `if self.plugin_state is not STATE_INSTALLED or
self.plugin_state is not STATE_DEACTIVATED:` — an `or` where termite uses
`and`. -/
def nanoppActivate (st : Option PState) (hooks : List Hook) : Option PState × Bool :=
  if st ≠ some PState.installed ∨ st ≠ some PState.deactivated then (st, true)
  else if runActivateHooks hooks then (some PState.deactivated, false)
  else (some PState.active, false)

/-! ### Version-range matching (`src/nanopp/plugins/support.py`)

The version values are Python strings; `>=`, `>`, `<=`, `<` on them are raw
lexicographic comparison by code point, which Lean's `String` order also is. -/

/-- Lexicographic comparison of character lists by code point. -/
def charsLtb : List Char → List Char → Bool
  | [], [] => false
  | [], _ :: _ => true
  | _ :: _, [] => false
  | a :: as_, b :: bs =>
    if Nat.blt a.toNat b.toNat then true
    else if Nat.blt b.toNat a.toNat then false
    else charsLtb as_ bs

/-- Python `<` on strings: lexicographic comparison by code point. -/
def pyStrLt (a b : String) : Bool := charsLtb a.data b.data

/-- Python `<=` on strings (`a <= b` iff not `b < a` for the total
lexicographic order). -/
def pyStrLe (a b : String) : Bool := !(pyStrLt b a)

/-- Python `version.split('.')`: split on every dot, keeping empty
segments. -/
def pySplitDotAux : List Char → List Char → List (List Char)
  | [], cur => [cur.reverse]
  | c :: rest, cur =>
    if c.toNat == 46 then cur.reverse :: pySplitDotAux rest []
    else pySplitDotAux rest (c :: cur)

def pySplitDot (s : String) : List String :=
  (pySplitDotAux s.data []).map (fun l => ⟨l⟩)

def checkMinVersion (version : String) (minVersion : Option String) (incl : Bool) : Bool :=
  match minVersion with
  | none => true
  | some mn => if incl then pyStrLe mn version else pyStrLt mn version

def checkMaxVersion (version : String) (maxVersion : Option String) (incl : Bool) : Bool :=
  match maxVersion with
  | none => true
  | some mx => if incl then pyStrLe version mx else pyStrLt version mx

/-- `normalize_version_string`: pad a dotted version to at least three
segments with `"0"` and rejoin with dots. -/
def normalizeVersionString : Option String → Option String
  | none => none
  | some v =>
    let vrs := pySplitDotAux v.data []
    if vrs.length < 3 then
      some ⟨List.intercalate [Char.ofNat 46] (vrs ++ List.replicate (3 - vrs.length) [Char.ofNat 48])⟩
    else some v

def normalizeVersion (t : Option String × Bool) : Option String × Bool :=
  (normalizeVersionString t.1, t.2)

/-- The `RequiresEntry.__init__` treatment of `version_range`: default missing
entries to `(None, False)` and normalize both bounds. -/
def requiresRange (vr : List (Option String × Bool)) :
    (Option String × Bool) × (Option String × Bool) :=
  let vr := if vr.length = 0 then [(none, false), (none, false)] else vr
  let vr := if vr.length < 2 then vr ++ [(none, false)] else vr
  (normalizeVersion (vr.headD (none, false)), normalizeVersion (vr[1]?.getD (none, false)))

/-- `RequiresEntry.version_in_range`. -/
def versionInRange (range : (Option String × Bool) × (Option String × Bool))
    (version : String) : Bool :=
  checkMinVersion version range.1.1 range.1.2 && checkMaxVersion version range.2.1 range.2.2

/-! ### Semantic version ordering, modelled from the spec

Modelled from the spec: §4.2 — "Version ordering must be semantic
(component-wise numeric comparison of dot-separated segments, non-numeric
suffixes compared lexically after numeric segments), not raw lexical string
comparison".  This definition exists only to state the divergence; the source
has no semantic comparator. -/

def natOfDigits (s : String) : Nat :=
  s.data.foldl (fun n c => n * 10 + (c.toNat - 48)) 0

def segNumeric (s : String) : Bool := !s.data.isEmpty && s.data.all (·.isDigit)

def specSegLt (a b : String) : Bool :=
  if segNumeric a && segNumeric b then decide (natOfDigits a < natOfDigits b)
  else if segNumeric a && !segNumeric b then true
  else if !segNumeric a && segNumeric b then false
  else pyStrLt a b

def specSegEq (a b : String) : Bool :=
  if segNumeric a && segNumeric b then decide (natOfDigits a = natOfDigits b) else a == b

def specSegsLt : List String → List String → Bool
  | [], [] => false
  | [], _ :: _ => true
  | _ :: _, [] => false
  | a :: as_, b :: bs => if specSegLt a b then true
      else if specSegEq a b then specSegsLt as_ bs else false

def specVersionLt (a b : String) : Bool :=
  specSegsLt (pySplitDot a) (pySplitDot b)

def specCheckMin (version : String) (minVersion : Option String) (incl : Bool) : Bool :=
  match minVersion with
  | none => true
  | some mn => if incl then !specVersionLt version mn else specVersionLt mn version

def specCheckMax (version : String) (maxVersion : Option String) (incl : Bool) : Bool :=
  match maxVersion with
  | none => true
  | some mx => if incl then !specVersionLt mx version else specVersionLt version mx

/-- Modelled from the spec: `versionInRange` with semantic ordering (§4.2). -/
def specVersionInRange (range : (Option String × Bool) × (Option String × Bool))
    (version : String) : Bool :=
  specCheckMin version range.1.1 range.1.2 && specCheckMax version range.2.1 range.2.2

/-! ### Concrete call sequences used by the claims -/

/-- The dependency contributions `PluginManager.__load_dependencies__` makes
for two plugins `plugin.A` (one `Requires` entry on `plugin.B`, range
`[1.0.0, 2.0.0)`, provider container `cA`) and `plugin.B` (no requires,
provider container `cB`), in the order `add_plugin(A)` then
`add_plugin(B)`. -/
def twoPluginOps : List PdmOp :=
  [.dep "plugin.A", .addProv "plugin.A" "1.0.0" "cA", .dep "plugin.A",
   .req "plugin.A" "plugin.B" (.pair (some "1.0.0") true) (.pair (some "2.0.0") false),
   .dep "plugin.B", .addProv "plugin.B" "1.5.0" "cB"]

/-- `dependency('d')`, then `require('x', 'd', None, None)` (an unbounded
requirement on `d`), then `add_provider('d', '1.0.0', 'p')`. -/
def satisfiedProbeOps : List PdmOp :=
  [.dep "d", .req "x" "d" (.bare none) (.bare none), .addProv "d" "1.0.0" "p"]

/-- Holds when every vertex of the graph carries a truthy default-key mark
(the situation after one `find_circular_rings` call, and equally after a
completed full iteration of the graph, which marks every vertex
`DISCOVERED`). -/
def allMarkedByName (g : PGraph) : Bool :=
  (g.vertices.map (·.name)).all (fun n => truthyOpt (defaultVMark g n))

/-- A graph with the cycle `a → b → a` whose vertices already carry default
marks, as they do after a first `find_circular_rings` call or a completed
iteration. -/
def markedCycleGraph : PGraph :=
  ⟨[⟨"a", [(":default", .s "visited")]⟩, ⟨"b", [(":default", .s "visited")]⟩],
   [⟨"b", "a", []⟩, ⟨"a", "b", []⟩]⟩

/-! ## Theorems -/

/-- C1: with the dependency declarations of the test
(`A→[B,C], B→[], C→[D,E,F], D→[F], E→[B], F→[E]`, added in that order),
`DependenciesManager.get_install_order` returns exactly
`['B', 'E', 'F', 'D', 'C', 'A']`. -/
theorem c1_install_order_example :
    (dmRun [("A", ["B", "C"]), ("B", []), ("C", ["D", "E", "F"]), ("D", ["F"]),
            ("E", ["B"]), ("F", ["E"])]).bind getInstallOrder =
      Except.ok ["B", "E", "F", "D", "C", "A"] := by
  rfl

/-- C2 (failing input): the diamond `a→b, a→c, b→d, c→d` is acyclic, yet
`find_circular_rings` reports the cross edge `c→d` as a ring `[d, c]` —
`visited` accumulates over the whole top-level DFS tree and `backtrack` is
never popped, so the already-finished non-ancestor `d` is treated as an
ancestor. -/
theorem c2_cross_edge_reported :
    (buildGraph ["a", "b", "c", "d"] [("a", "b"), ("a", "c"), ("b", "d"), ("c", "d")]).map
      (fun g => (acyclicSpec g, (findCircularRings g).2)) =
      Except.ok (true, [["d", "c"]]) := by
  rfl

/-- C9 counterexample: for the graph whose only cycle is `a→b→c→a` with the
single extra edge `b→d` leaving the cycle into the acyclic sink `d` (edges
added in the order `a→b, b→d, b→c, c→a`), `find_circular_rings` returns one
ring `[a, b, d, c]`, whose vertex set contains `d` and is therefore not
exactly `{a, b, c}` as the claim requires. -/
theorem c9_ring_vertexset_counterexample :
    (buildGraph ["a", "b", "c", "d"] [("a", "b"), ("b", "d"), ("b", "c"), ("c", "a")]).map
      (fun g => (findCircularRings g).2) = Except.ok [["a", "b", "d", "c"]] ∧
    "d" ∈ (["a", "b", "d", "c"] : List String) ∧
    "d" ∉ (["a", "b", "c"] : List String) := by
  refine ⟨by rfl, by decide, by decide⟩

/-- C9 (amended): on the two graphs of the repository's tests the claimed
ring lists do come out: the graph `a→b, b→c, c→a, c→d` yields exactly one
ring `[a, b, c]`, and the seven-vertex graph with the two vertex-disjoint
cycles `a→b→c→a` and `e→g→f→e` (plus edges `a→d`, `e→d`) yields exactly the
two rings `[a, b, c]` and `[e, g, f]`, each matching its own cycle's vertex
set. -/
theorem c9_rings_on_test_graphs :
    (buildGraph ["a", "b", "c", "d"] [("a", "b"), ("b", "c"), ("c", "a"), ("c", "d")]).map
      (fun g => (findCircularRings g).2) = Except.ok [["a", "b", "c"]] ∧
    (buildGraph ["a", "b", "c", "d", "e", "f", "g"]
      [("a", "b"), ("b", "c"), ("c", "a"), ("a", "d"), ("e", "d"), ("e", "g"),
       ("g", "f"), ("f", "e")]).map (fun g => (findCircularRings g).2) =
      Except.ok [["a", "b", "c"], ["e", "g", "f"]] := by
  exact ⟨by rfl, by rfl⟩

/-- C3 (failing input): after `dependency('d')`,
`require('x', 'd', None, None)` and `add_provider('d', '1.0.0', 'p')`, the
single Requirement edge (tail `x`, head `d`, unbounded range) carries no
`satisfied` mark even though the registered provider version `1.0.0` lies in
the unbounded range (per the spec's own range semantics), because
`Require.is_satisfied_with` returns `False` unconditionally. -/
theorem c3_satisfied_never_marked :
    (runPdmOps satisfiedProbeOps).map (fun g => g.edges) =
      Except.ok [⟨"d", "x", (none, true), (none, true), []⟩] ∧
    requireIsSatisfied ⟨"d", "x", (none, true), (none, true), []⟩ = false ∧
    specVersionInRange ((none, true), (none, true)) "1.0.0" = true ∧
    (∀ v : String, requireIsSatisfiedWith v = false) := by
  exact ⟨by rfl, by rfl, by rfl, fun _ => rfl⟩

/-- C4 (failing input): `version_in_range` compares version strings with raw
lexicographic string comparison, so version `10.0.0` is rejected by the range
`[9.0.0, ∞)` although semantic ordering (the one the claim states) accepts
it; the claim's boundary examples for `[1.0.0, 2.0.0)` do hold under either
ordering. -/
theorem c4_lexical_version_compare :
    versionInRange (requiresRange [(some "9.0.0", true)]) "10.0.0" = false ∧
    specVersionInRange ((some "9.0.0", true), (none, false)) "10.0.0" = true ∧
    versionInRange (requiresRange [(some "1.0.0", true), (some "2.0.0", false)]) "1.0.0" = true ∧
    versionInRange (requiresRange [(some "1.0.0", true), (some "2.0.0", false)]) "1.9.9" = true ∧
    versionInRange (requiresRange [(some "1.0.0", true), (some "2.0.0", false)]) "2.0.0" = false ∧
    versionInRange (requiresRange [(some "1.0.0", true), (some "2.0.0", false)]) "0.9.9" = false := by
  refine ⟨by rfl, by rfl, by rfl, by rfl, by rfl, by rfl⟩

/-- C5 (failing input): for the two plugins `plugin.A` (requires `plugin.B`)
and `plugin.B`, `reverese_dependency_order` does produce the
dependencies-first order `[plugin.B, plugin.A]` and the providers derived
from it in that order are `[cB, cA]`; but `install_all_plugins` pours them
into a Python `set` and iterates the set, and `[cA, cB]` — installing the
dependent before its dependency — is a permutation of that set's contents,
i.e. a possible iteration order.  The computed order is discarded. -/
theorem c5_install_order_discarded :
    (runPdmOps twoPluginOps).map (fun g =>
      (reverseDependencyOrderNames g,
       providerSetContents g (reverseDependencyOrderNames g))) =
      Except.ok (["plugin.B", "plugin.A"], ["cB", "cA"]) ∧
    (["cA", "cB"] : List String).Perm ["cB", "cA"] := by
  refine ⟨by rfl, by decide⟩

/-- C6 (failing input): `PluginContainer.activate` in `src/nanopp/platform.py`
guards with `is not INSTALLED or is not DEACTIVATED`, a condition that is
true in every state, so it raises `PluginLifecycleException` and leaves the
state unchanged no matter what — in particular from `Installed`.  The termite
container (`src/termite/platform.py`) behaves as the claim states: activate
succeeds exactly from `Installed` or `Deactivated` (raising, state unchanged,
otherwise), and the sequence activate-from-Installed, deactivate, activate
again succeeds. -/
theorem c6_activate_guard :
    (∀ (st : Option PState) (hooks : List Hook), nanoppActivate st hooks = (st, true)) ∧
    (∀ (st : Option PState) (hooks : List Hook), termiteActivate st hooks =
      if st = some PState.installed ∨ st = some PState.deactivated then
        (if runActivateHooks hooks then (some PState.deactivated, false)
         else (some PState.active, false))
      else (st, true)) ∧
    termiteActivate (some PState.installed) [⟨false, false, false⟩] =
      (some PState.active, false) ∧
    termiteDeactivate (some PState.active) [⟨false, false, false⟩] =
      (some PState.deactivated, false) ∧
    termiteActivate (some PState.deactivated) [⟨false, false, false⟩] =
      (some PState.active, false) := by
  refine ⟨?_, ?_, rfl, rfl, rfl⟩
  · intro st hooks
    rcases st with _ | s
    · rfl
    · cases s <;> rfl
  · intro st hooks
    rcases st with _ | s
    · rfl
    · cases s <;> rfl

/-- The hook loop raises iff some hook's `activate` raises. -/
theorem runActivateHooks_eq_any (hs : List Hook) :
    runActivateHooks hs = hs.any (·.activateRaises) := by
  induction hs with
  | nil => rfl
  | cons h t ih =>
    by_cases hh : h.activateRaises = true
    · simp [runActivateHooks, hh]
    · simp only [Bool.not_eq_true] at hh
      simp [runActivateHooks, hh, ih]

/-- C7: if the termite `PluginContainer.activate` is entered in `Installed`
or `Deactivated` state and some hook's `activate` raises, the container ends
in `Deactivated` (neither `Active` nor `Disposed`), and no exception
propagates out of the call (the hook error is caught, logged, and
`notify_state_change` swallows hook errors). -/
theorem c7_activation_failure_deactivates (st : Option PState) (hooks : List Hook)
    (hst : st = some PState.installed ∨ st = some PState.deactivated)
    (hfail : hooks.any (·.activateRaises) = true) :
    termiteActivate st hooks = (some PState.deactivated, false) := by
  have hrun : runActivateHooks hooks = true := by
    rw [runActivateHooks_eq_any]; exact hfail
  rcases hst with h | h <;> subst h <;> simp [termiteActivate, hrun]

/-- C7 witness: a container in `Installed` state with a single hook whose
`activate` raises ends `Deactivated` without propagating. -/
theorem c7_activation_failure_witness :
    termiteActivate (some PState.installed) [⟨true, false, false⟩] =
      (some PState.deactivated, false) :=
  c7_activation_failure_deactivates (some PState.installed) [⟨true, false, false⟩]
    (Or.inl rfl) rfl

/-! ### C8: `require` -/

theorem find?_append_isSome {α : Type} (p : α → Bool) (l l' : List α)
    (h : (l.find? p).isSome = true) : ((l ++ l').find? p).isSome = true := by
  induction l with
  | nil => simp [List.find?] at h
  | cons a t ih =>
    cases ha : p a with
    | true => simp [List.find?_cons_of_pos _ ha]
    | false =>
      rw [List.cons_append, List.find?_cons_of_neg _ (by simp [ha])]
      rw [List.find?_cons_of_neg _ (by simp [ha])] at h
      exact ih h

theorem find?_append_singleton_isSome {α : Type} (p : α → Bool) (l : List α) (x : α)
    (hx : p x = true) : ((l ++ [x]).find? p).isSome = true := by
  induction l with
  | nil => simp [List.find?_cons_of_pos _ hx]
  | cons a t ih =>
    cases ha : p a with
    | true => simp [List.find?_cons_of_pos _ ha]
    | false => rw [List.cons_append, List.find?_cons_of_neg _ (by simp [ha])]; exact ih

/-- `dependency(name)` never touches the edge list. -/
theorem pdmDependency_edges (g : PDMGraph) (n : String) :
    (pdmDependency g n).edges = g.edges := by
  unfold pdmDependency; split <;> rfl

/-- After `dependency(n)` the vertex `n` exists. -/
theorem pdmFindVertex_dependency_self (g : PDMGraph) (n : String) :
    (pdmFindVertex (pdmDependency g n) n).isSome = true := by
  unfold pdmDependency
  split
  · next h => exact h
  · unfold pdmFindVertex
    exact find?_append_singleton_isSome _ _ _ (by simp)

/-- `dependency(n)` preserves every existing vertex. -/
theorem pdmFindVertex_dependency_mono (g : PDMGraph) (n m : String)
    (h : (pdmFindVertex g m).isSome = true) :
    (pdmFindVertex (pdmDependency g n) m).isSome = true := by
  unfold pdmDependency
  split
  · exact h
  · unfold pdmFindVertex at h ⊢
    exact find?_append_isSome _ _ _ h

/-- C8 counterexample: `require` does raise.  After one
`require('a', 'b', None, None)`, the identical second call raises the
duplicate-edge error from `Graph.add_edge` (the two calls produce edges with
the same `Require.id()`), so `require` is not total over prior call
sequences. -/
theorem c8_require_duplicate_raises :
    runPdmOps [.req "a" "b" (.bare none) (.bare none),
               .req "a" "b" (.bare none) (.bare none)] =
      Except.error GErr.duplicateEdge := by
  rfl

/-- C8 (amended): for every prior manager state and all arguments, `require`
lazily creates the required and the dependent vertex (in that order), appends
a Requirement edge with tail = dependent and head = required, and returns
that edge — and it raises exactly when the graph already holds an edge with
the same `Require.id()` (same rendered tail, head and version range), the
duplicate-edge error; no other failure is possible. -/
theorem c8_require_behavior (g : PDMGraph) (dn rn : String) (mn mx : VerArg) :
    pdmRequire g dn rn mn mx =
      if g.edges.any (fun e0 =>
          reqEdgeId e0 == reqEdgeId ⟨rn, dn, mn.toTuple, mx.toTuple, []⟩) then
        Except.error GErr.duplicateEdge
      else
        Except.ok ({ vertices := (pdmDependency (pdmDependency g rn) dn).vertices,
                     edges := g.edges ++ [⟨rn, dn, mn.toTuple, mx.toTuple, []⟩] },
                   ⟨rn, dn, mn.toTuple, mx.toTuple, []⟩) := by
  have hrn : (pdmFindVertex (pdmDependency (pdmDependency g rn) dn) rn).isSome = true :=
    pdmFindVertex_dependency_mono _ _ _ (pdmFindVertex_dependency_self g rn)
  have hdn : (pdmFindVertex (pdmDependency (pdmDependency g rn) dn) dn).isSome = true :=
    pdmFindVertex_dependency_self (pdmDependency g rn) dn
  have hedges : (pdmDependency (pdmDependency g rn) dn).edges = g.edges := by
    rw [pdmDependency_edges, pdmDependency_edges]
  simp only [pdmRequire, pdmAddEdge]
  rw [hedges, hrn, hdn]
  simp

/-! ### C10: `find_circular_rings` is not repeatable -/

theorem marksGet_set_self (m : Marks) (k : String) (v : MarkVal) :
    marksGet (marksSet m k v) k = some v := by
  simp [marksSet, marksGet]

theorem findVertex_markVertexDefault (g : PGraph) (m : String) (v : MarkVal) (n : String) :
    (markVertexDefault g m v).findVertex n =
      (g.findVertex n).map (fun x =>
        if x.name == m then { x with marks := marksSet x.marks ":default" v } else x) := by
  unfold markVertexDefault PGraph.findVertex
  rw [List.find?_map]
  have hp : ((fun x : PVertex => x.name == n) ∘ fun x =>
      if x.name == m then { x with marks := marksSet x.marks ":default" v } else x) =
      (fun x : PVertex => x.name == n) := by
    funext x
    dsimp [Function.comp]
    split <;> rfl
  rw [hp]

/-- A truthy default mark survives any default-key `visited` marking. -/
theorem truthy_defaultVMark_mark_pres (g : PGraph) (m n : String)
    (h : truthyOpt (defaultVMark g n) = true) :
    truthyOpt (defaultVMark (markVertexDefault g m (MarkVal.s "visited")) n) = true := by
  unfold defaultVMark at h ⊢
  rw [findVertex_markVertexDefault]
  cases hf : g.findVertex n with
  | none => rw [hf] at h; simp [truthyOpt] at h
  | some x =>
    rw [hf] at h
    cases hx : x.name == m with
    | true =>
      have hxx : x.name = m := beq_iff_eq.mp hx
      simp [hxx, marksGet_set_self, truthyOpt]
    | false =>
      have hxx : ¬ x.name = m := by
        intro he
        rw [he] at hx
        simp at hx
      simpa [hxx] using h

theorem defaultVMark_mark_self (g : PGraph) (n : String) (v : MarkVal)
    (h : (g.findVertex n).isSome = true) :
    defaultVMark (markVertexDefault g n v) n = some v := by
  unfold defaultVMark
  rw [findVertex_markVertexDefault]
  unfold PGraph.findVertex at h ⊢
  cases hf : g.vertices.find? (fun x => x.name == n) with
  | none => rw [hf] at h; simp at h
  | some x =>
    have hx := List.find?_some hf
    have hxx : x.name = n := beq_iff_eq.mp hx
    simp [hxx, marksGet_set_self]

theorem names_markVertexDefault (g : PGraph) (m : String) (v : MarkVal) :
    (markVertexDefault g m v).vertices.map (·.name) = g.vertices.map (·.name) := by
  have haux : ∀ l : List PVertex,
      (l.map (fun x =>
        if x.name == m then { x with marks := marksSet x.marks ":default" v } else x)).map
          (fun x => x.name) = l.map (fun x => x.name) := by
    intro l
    induction l with
    | nil => rfl
    | cons a t ih =>
      simp only [List.map_cons, ih]
      congr 1
      split <;> rfl
  exact haux g.vertices

theorem findVertex_isSome_iff (g : PGraph) (n : String) :
    (g.findVertex n).isSome = true ↔ n ∈ g.vertices.map (·.name) := by
  unfold PGraph.findVertex
  simp [List.find?_isSome, beq_iff_eq]

theorem crEdgeStep_g_pres (rec : String → CRState → CRState) (P : PGraph → Prop)
    (hrec : ∀ v s, P s.g → P (rec v s).g) (i : Nat) (s : CRState) (h : P s.g) :
    P (crEdgeStep rec i s).g := by
  simp only [crEdgeStep]
  cases hc : s.visited.contains (edgeAt s.g i).head with
  | true =>
    simp only [hc, if_true]
    split
    · exact h
    · exact hrec _ _ h
  | false =>
    simp only [Bool.false_eq_true, if_false]
    split
    · exact h
    · exact hrec _ _ h

theorem crEdgeLoop_g_pres (rec : String → CRState → CRState) (P : PGraph → Prop)
    (hrec : ∀ v s, P s.g → P (rec v s).g) :
    ∀ (idxs : List Nat) (s : CRState), P s.g → P (crEdgeLoop rec idxs s).g := by
  intro idxs
  induction idxs with
  | nil => intro s h; exact h
  | cons i rest ih =>
    intro s h
    exact ih _ (crEdgeStep_g_pres rec P hrec i s h)

/-- Any graph property preserved by default-key `visited` marking is
preserved by the whole traversal (the traversal's only graph mutation). -/
theorem traverseCR_g_pres (P : PGraph → Prop)
    (hmark : ∀ g m, P g → P (markVertexDefault g m (MarkVal.s "visited"))) :
    ∀ (fuel : Nat) (v : String) (s : CRState), P s.g → P (traverseCR fuel v s).g := by
  intro fuel
  induction fuel with
  | zero => intro v s h; exact h
  | succ f ih =>
    intro v s h
    simp only [traverseCR]
    split
    · exact h
    · exact crEdgeLoop_g_pres _ P ih _ _ (hmark _ _ h)

theorem traverseCR_names (fuel : Nat) (v : String) (s : CRState) :
    (traverseCR fuel v s).g.vertices.map (·.name) = s.g.vertices.map (·.name) :=
  traverseCR_g_pres (fun gg => gg.vertices.map (·.name) = s.g.vertices.map (·.name))
    (fun g m h => (names_markVertexDefault g m (MarkVal.s "visited")).trans h) fuel v s rfl

/-- A vertex present in the graph is default-marked after its traversal. -/
theorem traverseCR_marks_self (fuel : Nat) (v : String) (s : CRState)
    (hin : (s.g.findVertex v).isSome = true) :
    truthyOpt (defaultVMark (traverseCR (fuel + 1) v s).g v) = true := by
  simp only [traverseCR]
  split
  · next hm => exact hm
  · apply crEdgeLoop_g_pres _ (fun gg => truthyOpt (defaultVMark gg v) = true)
      (fun w s' h' =>
        traverseCR_g_pres _ (fun g m h => truthy_defaultVMark_mark_pres g m v h) fuel w s' h')
    rw [defaultVMark_mark_self s.g v _ hin]
    rfl

theorem fcrLoop_g_pres (fuel : Nat) (P : PGraph → Prop)
    (hstep : ∀ v (s : CRState), P s.g → P (traverseCR fuel v s).g) :
    ∀ (names : List String) (acc : PGraph × List (List String)),
      P acc.1 → P (fcrLoop fuel names acc).1 := by
  intro names
  induction names with
  | nil => intro acc h; exact h
  | cons v rest ih =>
    intro acc h
    exact ih _ (hstep v ⟨acc.1, [], [], acc.2⟩ h)

/-- After the `for vertex in graph.vertices` loop every listed vertex is
default-marked. -/
theorem fcrLoop_marks_all (fuel : Nat) :
    ∀ (names : List String) (acc : PGraph × List (List String)),
      (∀ n ∈ names, (acc.1.findVertex n).isSome = true) →
      ∀ n ∈ names, truthyOpt (defaultVMark (fcrLoop (fuel + 1) names acc).1 n) = true := by
  intro names
  induction names with
  | nil => intro acc _ n hn; exact absurd hn (List.not_mem_nil n)
  | cons v rest ih =>
    intro acc hfind n hn
    rcases List.mem_cons.mp hn with rfl | hmem
    · have h1 : truthyOpt (defaultVMark (traverseCR (fuel + 1) n ⟨acc.1, [], [], acc.2⟩).g n)
          = true :=
        traverseCR_marks_self fuel n _ (hfind n (List.mem_cons_self n rest))
      exact fcrLoop_g_pres (fuel + 1) (fun gg => truthyOpt (defaultVMark gg n) = true)
        (fun w s' h' =>
          traverseCR_g_pres _ (fun g m h => truthy_defaultVMark_mark_pres g m n h) _ w s' h')
        rest _ h1
    · refine ih _ (fun m hm => ?_) n hmem
      have hnames : (traverseCR (fuel + 1) v ⟨acc.1, [], [], acc.2⟩).g.vertices.map (·.name) =
          acc.1.vertices.map (·.name) := traverseCR_names _ _ _
      rw [findVertex_isSome_iff]
      show m ∈ (traverseCR (fuel + 1) v ⟨acc.1, [], [], acc.2⟩).g.vertices.map (·.name)
      rw [hnames, ← findVertex_isSome_iff]
      exact hfind m (List.mem_cons_of_mem v hm)

/-- When every listed vertex is already default-marked the loop does
nothing. -/
theorem fcrLoop_id (fuel : Nat) :
    ∀ (names : List String) (acc : PGraph × List (List String)),
      (∀ n ∈ names, truthyOpt (defaultVMark acc.1 n) = true) →
      fcrLoop (fuel + 1) names acc = acc := by
  intro names
  induction names with
  | nil => intro acc _; rfl
  | cons v rest ih =>
    intro acc h
    have hv := h v (List.mem_cons_self v rest)
    have hstep : traverseCR (fuel + 1) v ⟨acc.1, [], [], acc.2⟩ = ⟨acc.1, [], [], acc.2⟩ := by
      simp only [traverseCR]
      rw [if_pos hv]
    show fcrLoop (fuel + 1) rest
        ((traverseCR (fuel + 1) v ⟨acc.1, [], [], acc.2⟩).g,
         (traverseCR (fuel + 1) v ⟨acc.1, [], [], acc.2⟩).rings) = acc
    rw [hstep]
    exact ih acc (fun m hm => h m (List.mem_cons_of_mem v hm))

/-- C10: `find_circular_rings` is not repeatable on the same `Graph` object.
For every graph, the call after a first `find_circular_rings` returns no
rings and changes nothing (so all later calls return `[]` too, even when the
graph contains cycles); and on any graph whose vertices all carry a truthy
default mark — the situation `find_circular_rings` leaves behind, and equally
what a completed full iteration's `DISCOVERED` marks produce —
`find_circular_rings` returns `([], unchanged graph)`.  The marks persist
because `__clone__` returns `self`. -/
theorem c10_find_circular_rings_not_repeatable (g : PGraph) :
    findCircularRings (findCircularRings g).1 = ((findCircularRings g).1, []) ∧
    (allMarkedByName g = true → findCircularRings g = (g, [])) := by
  constructor
  · have hall : ∀ n ∈ g.vertices.map (·.name),
        truthyOpt (defaultVMark (findCircularRings g).1 n) = true := by
      intro n hn
      show truthyOpt (defaultVMark
        (fcrLoop (g.vertices.length + 1) (g.vertices.map (·.name)) (g, [])).1 n) = true
      exact fcrLoop_marks_all g.vertices.length (g.vertices.map (·.name)) (g, [])
        (fun m hm => (findVertex_isSome_iff g m).mpr hm) n hn
    have hnames : (findCircularRings g).1.vertices.map (·.name) = g.vertices.map (·.name) := by
      show (fcrLoop (g.vertices.length + 1) (g.vertices.map (·.name))
        (g, [])).1.vertices.map (·.name) = g.vertices.map (·.name)
      exact fcrLoop_g_pres (g.vertices.length + 1)
        (fun gg => gg.vertices.map (·.name) = g.vertices.map (·.name))
        (fun v s h => (traverseCR_names _ _ _).trans h)
        (g.vertices.map (·.name)) (g, []) rfl
    show fcrLoop ((findCircularRings g).1.vertices.length + 1)
        ((findCircularRings g).1.vertices.map (·.name)) ((findCircularRings g).1, []) =
        ((findCircularRings g).1, [])
    apply fcrLoop_id
    intro n hn
    rw [hnames] at hn
    exact hall n hn
  · intro hM
    show fcrLoop (g.vertices.length + 1) (g.vertices.map (·.name)) (g, []) = (g, [])
    apply fcrLoop_id
    intro n hn
    exact List.all_eq_true.mp hM n hn

/-- C10 witness: on the concrete cyclic graph `a → b → a` whose vertices are
already marked, `find_circular_rings` returns no rings and leaves the graph
unchanged. -/
theorem c10_not_repeatable_witness :
    findCircularRings markedCycleGraph = (markedCycleGraph, []) :=
  (c10_find_circular_rings_not_repeatable markedCycleGraph).2 (by rfl)

end NanoPP
